import Mathlib

/-!
# Verification of the github-repo-crawler core subsystems

Shallow embedding of the load-leveling queue, the batch persister with
deduplication and per-record fallback, the circuit-breaker wrapper, and the
change-aware crawling coordinator, translated from the Go sources:

* `src/ex2_queue/internal/queue/commit_queue.go` (bounded FIFO queue)
* `src/baseline/internal/scrape/commit_scrape.go` (`CommitUsecase.BatchCreate`)
* `src/ex3_gobreaker/internal/utils/breaker_utils.go` (breaker configuration)
* `src/unnamed/part_008` (`CrawlingCoordinator`)
-/

namespace Crawler

/-! ## Bounded queue (`commit_queue.go`)

`CommitQueue` holds `items`, a `maxSize` (Go `int`; `maxSize <= 0` means
unbounded), monotone metrics counters and the in-flight `processing` counter.
The element type is a parameter (`*model.CreateCommitRequest` in Go). -/

structure QueueMetrics where
  enqueueCount : Nat
  dequeueCount : Nat
  maxQueueLength : Nat
  deriving Repr, DecidableEq

structure CommitQueue (α : Type) where
  items : List α
  maxSize : Int
  metrics : QueueMetrics
  processing : Nat
  deriving Repr

/-- Queue as built by `NewCommitQueueProcessor`: empty items, given `maxSize`,
zero metrics. -/
def newCommitQueue (α : Type) (maxSize : Int) : CommitQueue α :=
  { items := [], maxSize := maxSize
    metrics := { enqueueCount := 0, dequeueCount := 0, maxQueueLength := 0 }
    processing := 0 }

/-- `CommitQueueProcessor.EnqueueCommit`: rejects (returns `false`, state
untouched) when `maxSize > 0 && len(items) >= maxSize`; otherwise appends,
bumps `EnqueueCount`, updates the high-water mark, and returns `true`. -/
def enqueueCommit {α : Type} (q : CommitQueue α) (request : α) :
    CommitQueue α × Bool :=
  if q.maxSize > 0 ∧ (q.items.length : Int) ≥ q.maxSize then
    (q, false)
  else
    let items := q.items ++ [request]
    let m := q.metrics
    let m := { m with enqueueCount := m.enqueueCount + 1 }
    let m :=
      if items.length > m.maxQueueLength then
        { m with maxQueueLength := items.length }
      else m
    ({ q with items := items, metrics := m }, true)

/-- `CommitQueueProcessor.dequeueCommits` on the path where the queue is
non-empty (when it is empty the Go code blocks on the condition variable and
returns `nil` only on cancellation, modelled by the empty-queue branch):
takes `count = min(maxCount, len(items))` oldest items off the front,
bumps `DequeueCount` and `processing` by `count`. -/
def dequeueCommits {α : Type} (q : CommitQueue α) (maxCount : Nat) :
    CommitQueue α × List α :=
  if q.items.isEmpty then
    (q, [])
  else
    let count := if maxCount > q.items.length then q.items.length else maxCount
    let taken := q.items.take count
    ({ q with items := q.items.drop count
              metrics := { q.metrics with
                dequeueCount := q.metrics.dequeueCount + count }
              processing := q.processing + count },
     taken)

/-- A single client-visible queue operation: an `EnqueueCommit` or a
`dequeueCommits` call. -/
inductive QueueOp (α : Type) where
  | enq (a : α)
  | deq (maxCount : Nat)

def applyQueueOp {α : Type} (q : CommitQueue α) : QueueOp α → CommitQueue α
  | QueueOp.enq a => (enqueueCommit q a).1
  | QueueOp.deq n => (dequeueCommits q n).1

def applyQueueOps {α : Type} (q : CommitQueue α) : List (QueueOp α) → CommitQueue α
  | [] => q
  | op :: ops => applyQueueOps (applyQueueOp q op) ops

lemma enqueueCommit_length_le {α : Type} (q : CommitQueue α) (a : α)
    (hms : 0 < q.maxSize) (hq : (q.items.length : Int) ≤ q.maxSize) :
    (((enqueueCommit q a).1.items.length : Int)) ≤ q.maxSize := by
  unfold enqueueCommit
  split
  · exact hq
  · rename_i hcond
    simp only [List.length_append, List.length_cons, List.length_nil]
    push_neg at hcond
    have := hcond hms
    push_cast
    omega

lemma enqueueCommit_maxSize {α : Type} (q : CommitQueue α) (a : α) :
    (enqueueCommit q a).1.maxSize = q.maxSize := by
  unfold enqueueCommit
  split
  · rfl
  · rfl

lemma dequeueCommits_length_le {α : Type} (q : CommitQueue α) (n : Nat) :
    (dequeueCommits q n).1.items.length ≤ q.items.length := by
  unfold dequeueCommits
  split
  · exact Nat.le_refl _
  · simp only [List.length_drop]
    omega

lemma dequeueCommits_maxSize {α : Type} (q : CommitQueue α) (n : Nat) :
    (dequeueCommits q n).1.maxSize = q.maxSize := by
  unfold dequeueCommits
  split
  · rfl
  · rfl

lemma applyQueueOps_invariant {α : Type} (ops : List (QueueOp α))
    (q : CommitQueue α) (hms : 0 < q.maxSize)
    (hq : (q.items.length : Int) ≤ q.maxSize) :
    ((applyQueueOps q ops).items.length : Int) ≤ (applyQueueOps q ops).maxSize ∧
      (applyQueueOps q ops).maxSize = q.maxSize := by
  induction ops generalizing q with
  | nil => exact ⟨hq, rfl⟩
  | cons op ops ih =>
    cases op with
    | enq a =>
      have h1 := enqueueCommit_length_le q a hms hq
      have h2 := enqueueCommit_maxSize q a
      have := ih (q := (enqueueCommit q a).1) (by rw [h2]; exact hms)
        (by rw [h2]; exact h1)
      simpa [applyQueueOps, applyQueueOp, h2] using this
    | deq n =>
      have h1 := dequeueCommits_length_le q n
      have h2 := dequeueCommits_maxSize q n
      have := ih (q := (dequeueCommits q n).1) (by rw [h2]; exact hms)
        (by rw [h2]; exact le_trans (by exact_mod_cast Nat.cast_le.mpr h1) hq)
      simpa [applyQueueOps, applyQueueOp, h2] using this

/-- **C1** — Bounded-queue backpressure invariant: starting from a queue
constructed with `maxSize > 0`, any sequence of enqueue/dequeue operations
keeps `len(items) ≤ maxSize`; any queue standing exactly at `maxSize`
rejects the next enqueue with `false` and is left completely unchanged
(contents, length, counters); and with `maxSize ≤ 0` enqueue always appends
and returns `true`. -/
theorem c1_backpressure_invariant {α : Type} (maxSize : Int)
    (hms : 0 < maxSize) (ops : List (QueueOp α)) :
    ((applyQueueOps (newCommitQueue α maxSize) ops).items.length : Int) ≤ maxSize ∧
    (∀ (q : CommitQueue α) (a : α), 0 < q.maxSize →
      (q.items.length : Int) = q.maxSize → enqueueCommit q a = (q, false)) ∧
    (∀ (q : CommitQueue α) (a : α), q.maxSize ≤ 0 →
      (enqueueCommit q a).1.items = q.items ++ [a] ∧
        (enqueueCommit q a).2 = true) := by
  refine ⟨?_, ?_, ?_⟩
  · have := applyQueueOps_invariant ops (newCommitQueue α maxSize) hms
      (by simp [newCommitQueue]; omega)
    rcases this with ⟨h1, h2⟩
    rw [h2] at h1
    have h3 : (newCommitQueue α maxSize).maxSize = maxSize := rfl
    rw [h3] at h1
    exact h1
  · intro q a hpos hfull
    unfold enqueueCommit
    rw [if_pos ⟨hpos, le_of_eq hfull.symm⟩]
  · intro q a hle
    unfold enqueueCommit
    rw [if_neg (by push_neg; intro h; omega)]
    exact ⟨rfl, rfl⟩

/-- Witness for C1 at `maxSize = 2` with a concrete operation sequence and
concrete full/unbounded queues. -/
theorem c1_backpressure_invariant_witness :
    ((applyQueueOps (newCommitQueue Nat 2)
        [QueueOp.enq 5, QueueOp.enq 6, QueueOp.enq 9,
         QueueOp.deq 1, QueueOp.enq 7]).items.length : Int) ≤ 2 ∧
    enqueueCommit
        ({ items := [5, 6], maxSize := 2
           metrics := { enqueueCount := 2, dequeueCount := 0, maxQueueLength := 2 }
           processing := 0 } : CommitQueue Nat) 9 =
      ({ items := [5, 6], maxSize := 2
         metrics := { enqueueCount := 2, dequeueCount := 0, maxQueueLength := 2 }
         processing := 0 }, false) ∧
    (enqueueCommit
        ({ items := [1, 2, 3], maxSize := 0
           metrics := { enqueueCount := 3, dequeueCount := 0, maxQueueLength := 3 }
           processing := 0 } : CommitQueue Nat) 4).1.items = [1, 2, 3, 4] := by
  have h := c1_backpressure_invariant (α := Nat) 2 (by decide)
    [QueueOp.enq 5, QueueOp.enq 6, QueueOp.enq 9, QueueOp.deq 1, QueueOp.enq 7]
  refine ⟨h.1, h.2.1 _ 9 (by decide) (by decide), ?_⟩
  exact (h.2.2
    { items := [1, 2, 3], maxSize := 0
      metrics := { enqueueCount := 3, dequeueCount := 0, maxQueueLength := 3 }
      processing := 0 } 4 (by decide)).1

/-- **C9** — FIFO batch dequeue: on a non-empty queue, `dequeueCommits`
returns exactly `min(maxCount, len)` items, which are the oldest items in
their original insertion order (the returned batch is a prefix of the queue
and concatenating it with the remaining items reproduces the old queue),
and `DequeueCount` and `processing` both grow by exactly that number while
the enqueue counter is untouched. -/
theorem c9_fifo_batch_dequeue {α : Type} (q : CommitQueue α) (maxCount : Nat)
    (hne : q.items ≠ []) :
    (dequeueCommits q maxCount).2 = q.items.take (min maxCount q.items.length) ∧
    (dequeueCommits q maxCount).2.length = min maxCount q.items.length ∧
    (dequeueCommits q maxCount).2 ++ (dequeueCommits q maxCount).1.items = q.items ∧
    (dequeueCommits q maxCount).1.metrics.dequeueCount =
      q.metrics.dequeueCount + min maxCount q.items.length ∧
    (dequeueCommits q maxCount).1.processing =
      q.processing + min maxCount q.items.length ∧
    (dequeueCommits q maxCount).1.metrics.enqueueCount =
      q.metrics.enqueueCount := by
  have hq : q.items.isEmpty = false := by
    cases h : q.items with
    | nil => exact absurd h hne
    | cons a l => simp
  have hmin : (if maxCount > q.items.length then q.items.length else maxCount) =
      min maxCount q.items.length := by
    split <;> omega
  simp only [dequeueCommits, hq, Bool.false_eq_true, if_false, hmin]
  and_intros <;> simp [List.take_append_drop, List.length_take]

/-- Witness for C9 on a concrete 3-element queue with `maxCount = 2`. -/
theorem c9_fifo_batch_dequeue_witness :
    (dequeueCommits
        ({ items := [10, 20, 30], maxSize := 5
           metrics := { enqueueCount := 3, dequeueCount := 0, maxQueueLength := 3 }
           processing := 0 } : CommitQueue Nat) 2).2 =
      [10, 20, 30].take (min 2 3) ∧
    (dequeueCommits
        ({ items := [10, 20, 30], maxSize := 5
           metrics := { enqueueCount := 3, dequeueCount := 0, maxQueueLength := 3 }
           processing := 0 } : CommitQueue Nat) 2).1.metrics.dequeueCount =
      0 + min 2 3 := by
  have h := c9_fifo_batch_dequeue
    (q := ({ items := [10, 20, 30], maxSize := 5
             metrics := { enqueueCount := 3, dequeueCount := 0, maxQueueLength := 3 }
             processing := 0 } : CommitQueue Nat)) 2 (by decide)
  exact ⟨h.1, h.2.2.2.1⟩

/-! ## Batch persister (`CommitUsecase.BatchCreate`, `commit_scrape.go`)

The store is a list of commit rows. The surrogate `id` column assigned by the
database is omitted: it plays no role in the dedup logic, which is keyed on
`hash` and `release_id` only. Storage faults are injected through
`StoreBehavior`: whether the existing-commits query fails, whether
`CreateInBatches` fails, whether the final transaction commit fails, whether
the post-fallback re-query fails, and which individual fallback inserts fail
(by position in the post-dedup batch). -/

structure Commit where
  hash : String
  message : String
  releaseID : Int
  deriving Repr, DecidableEq

structure CreateCommitRequest where
  hash : String
  message : String
  releaseID : Int
  deriving Repr, DecidableEq

structure CommitResponse where
  hash : String
  message : String
  releaseID : Int
  deriving Repr, DecidableEq

def mkCommit (r : CreateCommitRequest) : Commit :=
  { hash := r.hash, message := r.message, releaseID := r.releaseID }

def responseOf (c : Commit) : CommitResponse :=
  { hash := c.hash, message := c.message, releaseID := c.releaseID }

structure StoreBehavior where
  findFails : Bool
  batchInsertFails : Bool
  txCommitFails : Bool
  requeryFails : Bool
  recordFails : Nat → Bool

/-- The existing-commits query
`tx.Where("hash IN ? AND release_id = ?", hashes, requests[0].ReleaseID)`:
rows of the store whose hash is among the batch hashes and whose release id
equals the **first** request's release id. On a query error the Go code only
logs a warning and continues, leaving the slice empty. -/
def existingFor (beh : StoreBehavior) (db : List Commit)
    (requests : List CreateCommitRequest) (r0 : CreateCommitRequest) :
    List Commit :=
  if beh.findFails then []
  else
    db.filter (fun c =>
      (requests.map (fun r => r.hash)).contains c.hash &&
        c.releaseID == r0.releaseID)

/-- The post-dedup batch `newRequests`: requests whose hash is not a key of
`existingMap` (the hashes of the rows returned by the query). -/
def postDedup (beh : StoreBehavior) (db : List Commit)
    (requests : List CreateCommitRequest) (r0 : CreateCommitRequest) :
    List CreateCommitRequest :=
  requests.filter (fun r =>
    !((existingFor beh db requests r0).map (fun c => c.hash)).contains r.hash)

structure FallbackResult where
  db : List Commit
  successCount : Nat
  errorCount : Nat
  attempts : List CreateCommitRequest
  deriving Repr

/-- The per-record fallback loop: each new request is inserted individually
on `c.DB` (auto-commit, outside the aborted transaction); a failed insert is
counted in `errorCount`, a successful one in `successCount`. `attempts`
records the requests attempted, in order. -/
def fallbackInserts (recordFails : Nat → Bool) :
    List CreateCommitRequest → Nat → List Commit → FallbackResult
  | [], _, db => { db := db, successCount := 0, errorCount := 0, attempts := [] }
  | r :: rs, i, db =>
    let ok := !recordFails i
    let db1 := if ok then db ++ [mkCommit r] else db
    let rest := fallbackInserts recordFails rs (i + 1) db1
    { db := rest.db
      successCount := if ok then rest.successCount + 1 else rest.successCount
      errorCount := if ok then rest.errorCount else rest.errorCount + 1
      attempts := r :: rest.attempts }

structure BatchCreateResult where
  db : List Commit
  responses : Option (List CommitResponse)
  dedupCount : Nat
  attempts : List CreateCommitRequest
  successCount : Nat
  errorCount : Nat
  usedFallback : Bool
  deriving Repr

/-- `CommitUsecase.BatchCreate`: empty batch returns immediately; otherwise
dedup against the store scoped to `requests[0].ReleaseID`; if nothing is new,
roll back and return the empty response; otherwise try the transactional
`CreateInBatches` (batch size 50, one enclosing transaction — atomic as a
whole); on its failure roll back and fall back to concurrent per-record
inserts, then re-query every row of `newRequests[0].ReleaseID` to build the
response. `responses = none` models an error return; `dedupCount` is
`len(requests) - len(newRequests)` (the requests classified as already
present). -/
def batchCreate (beh : StoreBehavior) (db : List Commit) :
    List CreateCommitRequest → BatchCreateResult
  | [] =>
    { db := db, responses := some [], dedupCount := 0, attempts := []
      successCount := 0, errorCount := 0, usedFallback := false }
  | r0 :: rest =>
    let requests := r0 :: rest
    let newRequests := postDedup beh db requests r0
    let dedupCount := requests.length - newRequests.length
    match newRequests with
    | [] =>
      { db := db, responses := some [], dedupCount := dedupCount, attempts := []
        successCount := 0, errorCount := 0, usedFallback := false }
    | n0 :: ns =>
      if beh.batchInsertFails then
        let fb := fallbackInserts beh.recordFails (n0 :: ns) 0 db
        if beh.requeryFails then
          { db := fb.db, responses := none, dedupCount := dedupCount
            attempts := fb.attempts, successCount := fb.successCount
            errorCount := fb.errorCount, usedFallback := true }
        else
          let allCommits := fb.db.filter (fun c => c.releaseID == n0.releaseID)
          { db := fb.db, responses := some (allCommits.map responseOf)
            dedupCount := dedupCount, attempts := fb.attempts
            successCount := fb.successCount, errorCount := fb.errorCount
            usedFallback := true }
      else if beh.txCommitFails then
        { db := db, responses := none, dedupCount := dedupCount, attempts := []
          successCount := 0, errorCount := 0, usedFallback := false }
      else
        { db := db ++ (n0 :: ns).map mkCommit
          responses := some (((n0 :: ns).map mkCommit).map responseOf)
          dedupCount := dedupCount, attempts := []
          successCount := 0, errorCount := 0, usedFallback := false }

/-- Storage behavior with no injected faults. -/
def goodBehavior : StoreBehavior :=
  { findFails := false, batchInsertFails := false, txCommitFails := false
    requeryFails := false, recordFails := fun _ => false }

lemma fallbackInserts_spec (rf : Nat → Bool) (reqs : List CreateCommitRequest)
    (i : Nat) (db : List Commit) :
    (fallbackInserts rf reqs i db).attempts = reqs ∧
    (fallbackInserts rf reqs i db).successCount +
        (fallbackInserts rf reqs i db).errorCount = reqs.length := by
  induction reqs generalizing i db with
  | nil => exact ⟨rfl, rfl⟩
  | cons r rs ih =>
    cases hok : rf i with
    | true =>
      obtain ⟨h1, h2⟩ := ih (i + 1) db
      refine ⟨by simp [fallbackInserts, hok, h1], ?_⟩
      simp [fallbackInserts, hok]
      omega
    | false =>
      obtain ⟨h1, h2⟩ := ih (i + 1) (db ++ [mkCommit r])
      refine ⟨by simp [fallbackInserts, hok, h1], ?_⟩
      simp [fallbackInserts, hok]
      omega

lemma batchCreate_good_shape (beh : StoreBehavior) (db : List Commit)
    (r0 : CreateCommitRequest) (rest : List CreateCommitRequest)
    (hbi : beh.batchInsertFails = false) (htx : beh.txCommitFails = false) :
    (batchCreate beh db (r0 :: rest)).db =
      db ++ (postDedup beh db (r0 :: rest) r0).map mkCommit ∧
    (batchCreate beh db (r0 :: rest)).responses.isSome = true := by
  cases hnew : postDedup beh db (r0 :: rest) r0 with
  | nil => simp [batchCreate, hnew]
  | cons n0 ns => simp [batchCreate, hnew, hbi, htx]

lemma batchCreate_all_dup (beh : StoreBehavior) (db : List Commit)
    (r0 : CreateCommitRequest) (rest : List CreateCommitRequest)
    (hnew : postDedup beh db (r0 :: rest) r0 = []) :
    batchCreate beh db (r0 :: rest) =
      { db := db, responses := some [], dedupCount := (r0 :: rest).length
        attempts := [], successCount := 0, errorCount := 0
        usedFallback := false } := by
  simp [batchCreate, hnew]

lemma mem_existingFor (beh : StoreBehavior) (db : List Commit)
    (requests : List CreateCommitRequest) (r0 : CreateCommitRequest)
    (hff : beh.findFails = false) (c : Commit) :
    c ∈ existingFor beh db requests r0 ↔
      c ∈ db ∧ c.hash ∈ requests.map (fun q => q.hash) ∧
        c.releaseID = r0.releaseID := by
  unfold existingFor
  rw [hff]
  simp [List.mem_filter, List.contains, List.elem_iff, and_assoc]

lemma covered_of_good (beh : StoreBehavior) (db : List Commit)
    (r0 : CreateCommitRequest) (rest : List CreateCommitRequest)
    (hff : beh.findFails = false)
    (hrel : ∀ r ∈ (r0 :: rest), r.releaseID = r0.releaseID)
    (r : CreateCommitRequest) (hr : r ∈ (r0 :: rest)) :
    ∃ c ∈ db ++ (postDedup beh db (r0 :: rest) r0).map mkCommit,
      c.hash = r.hash ∧ c.releaseID = r0.releaseID := by
  by_cases hmem : r.hash ∈ (existingFor beh db (r0 :: rest) r0).map (fun c => c.hash)
  · obtain ⟨c, hc, hch⟩ := List.mem_map.mp hmem
    obtain ⟨hcdb, _, hcrel⟩ := (mem_existingFor beh db (r0 :: rest) r0 hff c).mp hc
    exact ⟨c, List.mem_append_left _ hcdb, hch, hcrel⟩
  · have hrn : r ∈ postDedup beh db (r0 :: rest) r0 := by
      unfold postDedup
      rw [List.mem_filter]
      refine ⟨hr, ?_⟩
      simp [List.contains, List.elem_iff, hmem]
    exact ⟨mkCommit r, List.mem_append_right _ (List.mem_map_of_mem _ hrn),
      rfl, hrel r hr⟩

lemma postDedup_eq_nil_of_covered (beh : StoreBehavior) (db2 : List Commit)
    (r0 : CreateCommitRequest) (rest : List CreateCommitRequest)
    (hff : beh.findFails = false)
    (hcov : ∀ r ∈ (r0 :: rest),
      ∃ c ∈ db2, c.hash = r.hash ∧ c.releaseID = r0.releaseID) :
    postDedup beh db2 (r0 :: rest) r0 = [] := by
  unfold postDedup
  rw [List.filter_eq_nil_iff]
  intro r hr
  obtain ⟨c, hcdb, hch, hcrel⟩ := hcov r hr
  have hcex : c ∈ existingFor beh db2 (r0 :: rest) r0 :=
    (mem_existingFor beh db2 (r0 :: rest) r0 hff c).mpr
      ⟨hcdb, List.mem_map.mpr ⟨r, hr, hch.symm⟩, hcrel⟩
  have : r.hash ∈ (existingFor beh db2 (r0 :: rest) r0).map (fun c => c.hash) :=
    List.mem_map.mpr ⟨c, hcex, hch⟩
  simp [List.contains, List.elem_iff, this]

/-- **C2** — Dedup idempotence: for a non-empty batch whose requests all share
the first request's parent release, after a (fault-free, hence successful)
`BatchCreate` a second `BatchCreate` with the same batch on the resulting
store inserts nothing: the store is unchanged, every request is classified as
already present (`dedupCount = len(batch)`), and the call returns the empty
response without error. -/
theorem c2_dedup_idempotence (beh : StoreBehavior) (db : List Commit)
    (r0 : CreateCommitRequest) (rest : List CreateCommitRequest)
    (hrel : ∀ r ∈ (r0 :: rest), r.releaseID = r0.releaseID)
    (hff : beh.findFails = false) (hbi : beh.batchInsertFails = false)
    (htx : beh.txCommitFails = false) :
    (batchCreate beh db (r0 :: rest)).responses.isSome = true ∧
    batchCreate beh (batchCreate beh db (r0 :: rest)).db (r0 :: rest) =
      { db := (batchCreate beh db (r0 :: rest)).db, responses := some []
        dedupCount := (r0 :: rest).length, attempts := [], successCount := 0
        errorCount := 0, usedFallback := false } := by
  obtain ⟨hdb, hsome⟩ := batchCreate_good_shape beh db r0 rest hbi htx
  have hcov : ∀ r ∈ (r0 :: rest),
      ∃ c ∈ (batchCreate beh db (r0 :: rest)).db,
        c.hash = r.hash ∧ c.releaseID = r0.releaseID := by
    rw [hdb]
    exact covered_of_good beh db r0 rest hff hrel
  have hnil := postDedup_eq_nil_of_covered beh _ r0 rest hff hcov
  exact ⟨hsome, batchCreate_all_dup beh _ r0 rest hnil⟩

/-- Witness for C2: a two-request batch on an empty store, persisted twice
with a fault-free store. -/
theorem c2_dedup_idempotence_witness :
    (batchCreate goodBehavior []
        [{ hash := "a", message := "m1", releaseID := 1 },
         { hash := "b", message := "m2", releaseID := 1 }]).responses.isSome
      = true ∧
    batchCreate goodBehavior
        (batchCreate goodBehavior []
          [{ hash := "a", message := "m1", releaseID := 1 },
           { hash := "b", message := "m2", releaseID := 1 }]).db
        [{ hash := "a", message := "m1", releaseID := 1 },
         { hash := "b", message := "m2", releaseID := 1 }] =
      { db := (batchCreate goodBehavior []
            [{ hash := "a", message := "m1", releaseID := 1 },
             { hash := "b", message := "m2", releaseID := 1 }]).db
        responses := some [], dedupCount := 2, attempts := []
        successCount := 0, errorCount := 0, usedFallback := false } :=
  c2_dedup_idempotence goodBehavior []
    { hash := "a", message := "m1", releaseID := 1 }
    [{ hash := "b", message := "m2", releaseID := 1 }]
    (by intro r hr; fin_cases hr <;> rfl) rfl rfl rfl

/-- **C5** — Fallback completeness: when the transactional batch insert
fails, the per-record fallback attempts exactly the post-dedup requests, each
once and in order, and the per-record success and failure counts sum to the
number of post-dedup requests. -/
theorem c5_fallback_completeness (beh : StoreBehavior) (db : List Commit)
    (r0 : CreateCommitRequest) (rest : List CreateCommitRequest)
    (hbi : beh.batchInsertFails = true) :
    (batchCreate beh db (r0 :: rest)).attempts =
      postDedup beh db (r0 :: rest) r0 ∧
    (batchCreate beh db (r0 :: rest)).successCount +
        (batchCreate beh db (r0 :: rest)).errorCount =
      (postDedup beh db (r0 :: rest) r0).length := by
  cases hnew : postDedup beh db (r0 :: rest) r0 with
  | nil => simp [batchCreate, hnew]
  | cons n0 ns =>
    obtain ⟨h1, h2⟩ := fallbackInserts_spec beh.recordFails (n0 :: ns) 0 db
    by_cases hrq : beh.requeryFails = true <;>
      simp_all [batchCreate, hnew, hbi]

/-- Witness for C5: three fresh requests, batch insert fails, the middle
per-record insert fails. -/
theorem c5_fallback_completeness_witness :
    (batchCreate
        { findFails := false, batchInsertFails := true, txCommitFails := false
          requeryFails := false, recordFails := fun i => decide (i = 1) } []
        [{ hash := "a", message := "m1", releaseID := 1 },
         { hash := "b", message := "m2", releaseID := 1 },
         { hash := "c", message := "m3", releaseID := 1 }]).attempts =
      postDedup
        { findFails := false, batchInsertFails := true, txCommitFails := false
          requeryFails := false, recordFails := fun i => decide (i = 1) } []
        [{ hash := "a", message := "m1", releaseID := 1 },
         { hash := "b", message := "m2", releaseID := 1 },
         { hash := "c", message := "m3", releaseID := 1 }]
        { hash := "a", message := "m1", releaseID := 1 } ∧
    (batchCreate
        { findFails := false, batchInsertFails := true, txCommitFails := false
          requeryFails := false, recordFails := fun i => decide (i = 1) } []
        [{ hash := "a", message := "m1", releaseID := 1 },
         { hash := "b", message := "m2", releaseID := 1 },
         { hash := "c", message := "m3", releaseID := 1 }]).successCount +
      (batchCreate
        { findFails := false, batchInsertFails := true, txCommitFails := false
          requeryFails := false, recordFails := fun i => decide (i = 1) } []
        [{ hash := "a", message := "m1", releaseID := 1 },
         { hash := "b", message := "m2", releaseID := 1 },
         { hash := "c", message := "m3", releaseID := 1 }]).errorCount =
      (postDedup
        { findFails := false, batchInsertFails := true, txCommitFails := false
          requeryFails := false, recordFails := fun i => decide (i = 1) } []
        [{ hash := "a", message := "m1", releaseID := 1 },
         { hash := "b", message := "m2", releaseID := 1 },
         { hash := "c", message := "m3", releaseID := 1 }]
        { hash := "a", message := "m1", releaseID := 1 }).length :=
  c5_fallback_completeness
    { findFails := false, batchInsertFails := true, txCommitFails := false
      requeryFails := false, recordFails := fun i => decide (i = 1) } []
    { hash := "a", message := "m1", releaseID := 1 }
    [{ hash := "b", message := "m2", releaseID := 1 },
     { hash := "c", message := "m3", releaseID := 1 }] rfl

/-- Storage behavior in which only the existing-commits (dedup) query fails. -/
def findFailBehavior : StoreBehavior :=
  { findFails := true, batchInsertFails := false, txCommitFails := false
    requeryFails := false, recordFails := fun _ => false }

/-- **C7 counterexample** — the claim says a failed dedup query makes the
persister abandon the insert attempt, with no records of the batch inserted.
On a store already holding `("h", release 5)` and a batch re-submitting hash
`"h"` for release 5, a failed dedup query does **not** stop the call: the
batch row is inserted anyway (store grows from 1 to 2 rows) and the call
still returns successfully. -/
theorem c7_counterexample :
    (batchCreate findFailBehavior [{ hash := "h", message := "m", releaseID := 5 }]
        [{ hash := "h", message := "m2", releaseID := 5 }]).db =
      [{ hash := "h", message := "m", releaseID := 5 },
       { hash := "h", message := "m2", releaseID := 5 }] ∧
    (batchCreate findFailBehavior [{ hash := "h", message := "m", releaseID := 5 }]
        [{ hash := "h", message := "m2", releaseID := 5 }]).responses.isSome
      = true := ⟨rfl, rfl⟩

/-- **C7 (amended)** — When the dedup query fails, `BatchCreate` logs a
warning and **continues with an empty membership set**: no request is
classified as a duplicate (`dedupCount = 0`, the post-dedup batch is the
whole batch), and — if the rest of the pipeline succeeds — every request of
the batch is inserted and the error is not surfaced to the caller. -/
theorem c7_amended_continue_on_find_error (beh : StoreBehavior)
    (db : List Commit) (r0 : CreateCommitRequest)
    (rest : List CreateCommitRequest) (hff : beh.findFails = true) :
    postDedup beh db (r0 :: rest) r0 = r0 :: rest ∧
    (batchCreate beh db (r0 :: rest)).dedupCount = 0 ∧
    (beh.batchInsertFails = false → beh.txCommitFails = false →
      (batchCreate beh db (r0 :: rest)).db = db ++ (r0 :: rest).map mkCommit ∧
      (batchCreate beh db (r0 :: rest)).responses.isSome = true) := by
  have hpd : postDedup beh db (r0 :: rest) r0 = r0 :: rest := by
    unfold postDedup existingFor
    rw [hff]
    simp
  refine ⟨hpd, ?_, ?_⟩
  · cases hbi : beh.batchInsertFails <;> cases htx : beh.txCommitFails <;>
      cases hrq : beh.requeryFails <;> simp [batchCreate, hpd, hbi, htx, hrq]
  · intro hbi htx
    simpa [hpd] using batchCreate_good_shape beh db r0 rest hbi htx

/-- Witness for the amended C7 on a concrete store and batch. -/
theorem c7_amended_continue_on_find_error_witness :
    postDedup findFailBehavior [{ hash := "h", message := "m", releaseID := 5 }]
        [{ hash := "h", message := "m2", releaseID := 5 }]
        { hash := "h", message := "m2", releaseID := 5 } =
      [{ hash := "h", message := "m2", releaseID := 5 }] ∧
    (batchCreate findFailBehavior
        [{ hash := "h", message := "m", releaseID := 5 }]
        [{ hash := "h", message := "m2", releaseID := 5 }]).dedupCount = 0 ∧
    (batchCreate findFailBehavior
        [{ hash := "h", message := "m", releaseID := 5 }]
        [{ hash := "h", message := "m2", releaseID := 5 }]).db =
      [{ hash := "h", message := "m", releaseID := 5 }] ++
        [{ hash := "h", message := "m2", releaseID := 5 }].map mkCommit := by
  have h := c7_amended_continue_on_find_error findFailBehavior
    [{ hash := "h", message := "m", releaseID := 5 }]
    { hash := "h", message := "m2", releaseID := 5 } [] rfl
  exact ⟨h.1, h.2.1, (h.2.2 rfl rfl).1⟩

/-- **C10** — The dedup query is scoped to the first request's parent
release: its result set is exactly the stored rows whose hash occurs in the
batch **and** whose release id equals `requests[0].ReleaseID`; consequently a
request whose hash exists in the store only under a *different* release is
not classified as a duplicate and is inserted again (the number of stored
rows carrying its hash strictly increases). -/
theorem c10_dedup_scope_first_parent (beh : StoreBehavior) (db : List Commit)
    (r0 : CreateCommitRequest) (rest : List CreateCommitRequest)
    (r : CreateCommitRequest) (hff : beh.findFails = false)
    (hbi : beh.batchInsertFails = false) (htx : beh.txCommitFails = false)
    (hr : r ∈ (r0 :: rest))
    (_hex : ∃ c ∈ db, c.hash = r.hash)
    (hnotfirst : ∀ c ∈ db, c.hash = r.hash → c.releaseID ≠ r0.releaseID) :
    (∀ c : Commit, c ∈ existingFor beh db (r0 :: rest) r0 ↔
        c ∈ db ∧ c.hash ∈ (r0 :: rest).map (fun q => q.hash) ∧
          c.releaseID = r0.releaseID) ∧
    r ∈ postDedup beh db (r0 :: rest) r0 ∧
    (batchCreate beh db (r0 :: rest)).db.countP (fun c => c.hash == r.hash) =
      db.countP (fun c => c.hash == r.hash) +
        (postDedup beh db (r0 :: rest) r0).countP (fun q => q.hash == r.hash) ∧
    1 ≤ (postDedup beh db (r0 :: rest) r0).countP
          (fun q => q.hash == r.hash) := by
  have hscope := mem_existingFor beh db (r0 :: rest) r0 hff
  have hrn : r ∈ postDedup beh db (r0 :: rest) r0 := by
    unfold postDedup
    rw [List.mem_filter]
    refine ⟨hr, ?_⟩
    have hnm : r.hash ∉ (existingFor beh db (r0 :: rest) r0).map
        (fun c => c.hash) := by
      intro hmem
      obtain ⟨c, hc, hch⟩ := List.mem_map.mp hmem
      obtain ⟨hcdb, _, hcrel⟩ := (hscope c).mp hc
      exact hnotfirst c hcdb hch hcrel
    simp [List.contains, List.elem_iff, hnm]
  refine ⟨hscope, hrn, ?_, ?_⟩
  · rw [(batchCreate_good_shape beh db r0 rest hbi htx).1,
      List.countP_append, List.countP_map]
    rfl
  · rw [Nat.one_le_iff_ne_zero, Ne, ← Nat.le_zero, Nat.not_le,
      List.countP_pos_iff]
    exact ⟨r, hrn, by simp⟩

/-- Witness for C10: `"h"` exists in the store under release 7, and the
batch re-submits `"h"` under release 1. -/
theorem c10_dedup_scope_first_parent_witness :
    ({ hash := "h", message := "m2", releaseID := 1 } : CreateCommitRequest) ∈
      postDedup goodBehavior [{ hash := "h", message := "m", releaseID := 7 }]
        [{ hash := "h", message := "m2", releaseID := 1 }]
        { hash := "h", message := "m2", releaseID := 1 } ∧
    (batchCreate goodBehavior [{ hash := "h", message := "m", releaseID := 7 }]
        [{ hash := "h", message := "m2", releaseID := 1 }]).db.countP
        (fun c => c.hash == "h") =
      [({ hash := "h", message := "m", releaseID := 7 } : Commit)].countP
          (fun c => c.hash == "h") +
        (postDedup goodBehavior [{ hash := "h", message := "m", releaseID := 7 }]
          [{ hash := "h", message := "m2", releaseID := 1 }]
          { hash := "h", message := "m2", releaseID := 1 }).countP
          (fun q => q.hash == "h") := by
  have h := c10_dedup_scope_first_parent goodBehavior
    [{ hash := "h", message := "m", releaseID := 7 }]
    { hash := "h", message := "m2", releaseID := 1 } []
    { hash := "h", message := "m2", releaseID := 1 } rfl rfl rfl
    (by simp)
    ⟨{ hash := "h", message := "m", releaseID := 7 }, by simp, rfl⟩
    (by intro c hc hch; fin_cases hc; decide)
  exact ⟨h.2.1, h.2.2.1⟩

/-! ## Circuit breaker (`breaker_utils.go`)

`CircuitBreakerWrapper` wraps the `sony/gobreaker` library, a dependency
whose source is not part of this repository; only the configuration lives in
`src`: `MaxRequests: 3`, `Interval: 10s`, `Timeout: 30s`, and the
`ReadyToTrip` predicate. The `Execute` state machine is modelled from the
spec (§3 `CircuitState`, §4.3 CircuitBreaker), with time passed explicitly
in seconds. -/

inductive CircuitState where
  | Closed
  | Open
  | HalfOpen
  deriving Repr, DecidableEq

structure BreakerCounts where
  requests : Nat
  totalFailures : Nat
  consecutiveSuccesses : Nat
  deriving Repr, DecidableEq

def zeroCounts : BreakerCounts :=
  { requests := 0, totalFailures := 0, consecutiveSuccesses := 0 }

/-- The `ReadyToTrip` predicate configured by `NewCircuitBreaker`
(`breaker_utils.go`): `counts.Requests >= 3 && failureRatio >= 0.6`, where
`failureRatio = TotalFailures / Requests` is computed in `float64` in Go;
for the count magnitudes involved the comparison is exactly
`5 * TotalFailures >= 3 * Requests`. -/
def readyToTrip (counts : BreakerCounts) : Bool :=
  decide (counts.requests ≥ 3) &&
    decide (5 * counts.totalFailures ≥ 3 * counts.requests)

structure Breaker where
  state : CircuitState
  counts : BreakerCounts
  openedAt : Nat
  windowStart : Nat
  maxRequests : Nat
  interval : Nat
  timeout : Nat
  deriving Repr, DecidableEq

/-- The breaker as configured by `NewCircuitBreaker`: Closed, zero counts,
probe limit 3, rolling interval 10s, open duration 30s. -/
def newCircuitBreaker : Breaker :=
  { state := CircuitState.Closed, counts := zeroCounts
    openedAt := 0, windowStart := 0
    maxRequests := 3, interval := 10, timeout := 30 }

structure ExecOutcome where
  invoked : Bool
  openError : Bool
  ok : Bool
  deriving Repr, DecidableEq

/-- Modelled from the spec: the `gobreaker` `Execute` state machine (the
library is not part of this repository). Open fails fast with a circuit-open
error, without invoking the wrapped function, until `openDuration` has
elapsed, then becomes Half-Open; Half-Open admits at most `maxRequests`
probe calls, any failure re-opens (stamping `openedAt := now`), and
`maxRequests` consecutive successes close the breaker; Closed records
rolling counts, reset at each `interval` boundary, and trips to Open
(stamping `openedAt := now`) as soon as `ReadyToTrip` holds for the updated
counts. Counts are cleared on every state change. -/
def execute (b : Breaker) (now : Nat) (fnOk : Bool) : Breaker × ExecOutcome :=
  let b :=
    if b.state = CircuitState.Open ∧ now ≥ b.openedAt + b.timeout then
      { b with state := CircuitState.HalfOpen, counts := zeroCounts }
    else if b.state = CircuitState.Closed ∧ now ≥ b.windowStart + b.interval then
      { b with counts := zeroCounts, windowStart := now }
    else b
  match b.state with
  | CircuitState.Open => (b, { invoked := false, openError := true, ok := false })
  | CircuitState.HalfOpen =>
    if b.counts.requests ≥ b.maxRequests then
      (b, { invoked := false, openError := true, ok := false })
    else if fnOk then
      let counts :=
        { b.counts with
            requests := b.counts.requests + 1,
            consecutiveSuccesses := b.counts.consecutiveSuccesses + 1 }
      if counts.consecutiveSuccesses ≥ b.maxRequests then
        ({ b with state := CircuitState.Closed, counts := zeroCounts
                  windowStart := now },
         { invoked := true, openError := false, ok := true })
      else
        ({ b with counts := counts },
         { invoked := true, openError := false, ok := true })
    else
      ({ b with state := CircuitState.Open, counts := zeroCounts
                openedAt := now },
       { invoked := true, openError := false, ok := false })
  | CircuitState.Closed =>
    if fnOk then
      let counts :=
        { b.counts with
            requests := b.counts.requests + 1,
            consecutiveSuccesses := b.counts.consecutiveSuccesses + 1 }
      if readyToTrip counts then
        ({ b with state := CircuitState.Open, counts := zeroCounts
                  openedAt := now },
         { invoked := true, openError := false, ok := true })
      else
        ({ b with counts := counts },
         { invoked := true, openError := false, ok := true })
    else
      let counts :=
        { b.counts with
            requests := b.counts.requests + 1,
            totalFailures := b.counts.totalFailures + 1,
            consecutiveSuccesses := 0 }
      if readyToTrip counts then
        ({ b with state := CircuitState.Open, counts := zeroCounts
                  openedAt := now },
         { invoked := true, openError := false, ok := false })
      else
        ({ b with counts := counts },
         { invoked := true, openError := false, ok := false })

/-- Runs a sequence of `(time, outcome)` calls through the breaker. -/
def executeAll (b : Breaker) : List (Nat × Bool) → Breaker × List ExecOutcome
  | [] => (b, [])
  | (now, r) :: calls =>
    let step := execute b now r
    let rest := executeAll step.1 calls
    (rest.1, step.2 :: rest.2)

lemma execute_open_fast (b : Breaker) (now : Nat) (r : Bool)
    (hst : b.state = CircuitState.Open)
    (hlt : now < b.openedAt + b.timeout) :
    execute b now r = (b, { invoked := false, openError := true, ok := false }) := by
  have h1 : ¬(now ≥ b.openedAt + b.timeout) := by omega
  simp [execute, hst, h1]

lemma executeAll_open_fast (b : Breaker) (hst : b.state = CircuitState.Open)
    (calls : List (Nat × Bool))
    (hc : ∀ c ∈ calls, c.1 < b.openedAt + b.timeout) :
    (executeAll b calls).1 = b ∧
    ∀ o ∈ (executeAll b calls).2, o.invoked = false ∧ o.openError = true := by
  induction calls with
  | nil => exact ⟨rfl, by intro o ho; simp [executeAll] at ho⟩
  | cons c cs ih =>
    obtain ⟨now, r⟩ := c
    have hfast := execute_open_fast b now r hst
      (hc (now, r) (List.mem_cons_self _ _))
    obtain ⟨ih1, ih2⟩ := ih (fun d hd => hc d (List.mem_cons_of_mem _ hd))
    refine ⟨by simp [executeAll, hfast, ih1], ?_⟩
    intro o ho
    simp only [executeAll, hfast] at ho
    rcases List.mem_cons.mp ho with h | h
    · rw [h]; exact ⟨rfl, rfl⟩
    · exact ih2 o h

lemma execute_fresh (t0 : Nat) (r : Bool) :
    execute newCircuitBreaker t0 r =
      ({ state := CircuitState.Closed
         counts := { requests := 1, totalFailures := if r then 0 else 1
                     consecutiveSuccesses := if r then 1 else 0 }
         openedAt := 0, windowStart := if 10 ≤ t0 then t0 else 0
         maxRequests := 3, interval := 10, timeout := 30 },
       { invoked := true, openError := false, ok := r }) := by
  by_cases h10 : 10 ≤ t0 <;> cases r <;>
    simp [execute, newCircuitBreaker, zeroCounts, readyToTrip, h10]

lemma execute_step2 (t0 : Nat) (r1 r2 : Bool) :
    execute (execute newCircuitBreaker t0 r1).1 t0 r2 =
      ({ state := CircuitState.Closed
         counts := { requests := 2
                     totalFailures := (if r1 then 0 else 1) + (if r2 then 0 else 1)
                     consecutiveSuccesses := if r2 then (if r1 then 2 else 1) else 0 }
         openedAt := 0, windowStart := if 10 ≤ t0 then t0 else 0
         maxRequests := 3, interval := 10, timeout := 30 },
       { invoked := true, openError := false, ok := r2 }) := by
  have hx : ¬(t0 + 10 ≤ t0) := by omega
  rw [execute_fresh t0 r1]
  by_cases h10 : 10 ≤ t0 <;> cases r1 <;> cases r2 <;>
    simp [execute, readyToTrip, zeroCounts, h10, hx]

lemma execute_step3 (t0 : Nat) (r1 r2 r3 : Bool)
    (hfail : (if r1 then 0 else 1) + (if r2 then 0 else 1) +
        (if r3 then 0 else 1) = 2) :
    execute (execute (execute newCircuitBreaker t0 r1).1 t0 r2).1 t0 r3 =
      ({ state := CircuitState.Open, counts := zeroCounts, openedAt := t0
         windowStart := if 10 ≤ t0 then t0 else 0
         maxRequests := 3, interval := 10, timeout := 30 },
       { invoked := true, openError := false, ok := r3 }) := by
  have hx : ¬(t0 + 10 ≤ t0) := by omega
  rw [execute_step2 t0 r1 r2]
  cases r1 <;> cases r2 <;> cases r3 <;> simp at hfail <;>
    (by_cases h10 : 10 ≤ t0 <;>
      simp [execute, readyToTrip, zeroCounts, h10, hx])

/-- **C3** — Circuit-breaker trip and fail-fast: with the configuration of
`NewCircuitBreaker` (`minRequestsToTrip = 3`,
`failureRatioThreshold = 0.6`), any 3 executed calls (all actually invoked)
of which exactly 2 fail drive the breaker to Open with `openedAt` stamped at
the trip time; and for every subsequent call made while
`now < openedAt + openDuration` (30s), `execute` returns a circuit-open
error without invoking the wrapped function and leaves the breaker
unchanged. -/
theorem c3_breaker_trip_and_fail_fast (t0 : Nat) (r1 r2 r3 : Bool)
    (hfail : (if r1 then 0 else 1) + (if r2 then 0 else 1) +
        (if r3 then 0 else 1) = 2) :
    ((execute newCircuitBreaker t0 r1).2.invoked = true ∧
     (execute (execute newCircuitBreaker t0 r1).1 t0 r2).2.invoked = true ∧
     (execute (execute (execute newCircuitBreaker t0 r1).1 t0 r2).1 t0
        r3).2.invoked = true) ∧
    (execute (execute (execute newCircuitBreaker t0 r1).1 t0 r2).1 t0
        r3).1.state = CircuitState.Open ∧
    (execute (execute (execute newCircuitBreaker t0 r1).1 t0 r2).1 t0
        r3).1.openedAt = t0 ∧
    (∀ calls : List (Nat × Bool), (∀ c ∈ calls, c.1 < t0 + 30) →
      (executeAll (execute (execute (execute newCircuitBreaker t0 r1).1 t0
          r2).1 t0 r3).1 calls).1 =
        (execute (execute (execute newCircuitBreaker t0 r1).1 t0 r2).1 t0
          r3).1 ∧
      ∀ o ∈ (executeAll (execute (execute (execute newCircuitBreaker t0
          r1).1 t0 r2).1 t0 r3).1 calls).2,
        o.invoked = false ∧ o.openError = true) := by
  have h1 := execute_fresh t0 r1
  have h2 := execute_step2 t0 r1 r2
  have h3 := execute_step3 t0 r1 r2 r3 hfail
  refine ⟨⟨by rw [h1], by rw [h2], by rw [h3]⟩, by rw [h3], by rw [h3], ?_⟩
  intro calls hcalls
  exact executeAll_open_fast _ (by rw [h3]) calls (by rw [h3]; exact hcalls)

/-- Witness for C3: two failures then a success at time 0 trip the breaker;
a call at time 5 (before the 30s open duration elapses) fails fast. -/
theorem c3_breaker_trip_and_fail_fast_witness :
    (execute (execute (execute newCircuitBreaker 0 false).1 0 false).1 0
        true).1.state = CircuitState.Open ∧
    (executeAll (execute (execute (execute newCircuitBreaker 0 false).1 0
        false).1 0 true).1 [(5, true)]).1 =
      (execute (execute (execute newCircuitBreaker 0 false).1 0 false).1 0
        true).1 ∧
    ∀ o ∈ (executeAll (execute (execute (execute newCircuitBreaker 0
        false).1 0 false).1 0 true).1 [(5, true)]).2,
      o.invoked = false ∧ o.openError = true := by
  have h := c3_breaker_trip_and_fail_fast 0 false false true (by decide)
  have hff := h.2.2.2 [(5, true)] (by intro c hc; fin_cases hc; decide)
  exact ⟨h.2.1, hff.1, hff.2⟩

/-! ## Crawling coordinator (`src/unnamed/part_008`)

`CrawlingCoordinator` keeps, per stage (repo / release / commit), a cached
last payload, a consecutive no-change counter, and a pause flag; payloads are
compared by JSON serialization, modelled by decidable equality on an opaque
payload type. The per-cycle environment supplies each endpoint call outcome
(`none` = the call failed, including circuit-open fast failures); the trace
counts how many times each endpoint was called in the cycle. -/

structure CoordState (P : Type) where
  repoCache : Option P
  releaseCache : Option P
  commitCache : Option P
  repoNoChangeCount : Nat
  releaseNoChangeCount : Nat
  commitNoChangeCount : Nat
  repoPaused : Bool
  releasePaused : Bool
  commitPaused : Bool
  stabilityThreshold : Nat
  deriving Repr, DecidableEq

/-- `NewCrawlingCoordinator`: empty caches, zero counters, nothing paused,
stability threshold 3. -/
def newCrawlingCoordinator (P : Type) : CoordState P :=
  { repoCache := none, releaseCache := none, commitCache := none
    repoNoChangeCount := 0, releaseNoChangeCount := 0, commitNoChangeCount := 0
    repoPaused := false, releasePaused := false, commitPaused := false
    stabilityThreshold := 3 }

/-- `hasDataChanged`: `nil` previous data counts as changed; otherwise the
JSON serializations are compared, modelled as equality of payloads. -/
def hasDataChanged {P : Type} [DecidableEq P] (previous : Option P)
    (current : P) : Bool :=
  match previous with
  | none => true
  | some p => decide (p ≠ current)

/-- One cycle's endpoint outcomes: `none` models a failed call (HTTP error,
non-200 status, or circuit-breaker fast failure). -/
structure CrawlEnv (P : Type) where
  repoResult : Option P
  releaseResult : Option P
  commitResult : Option P

/-- How many times each stage endpoint was called during one `CrawlAll`. -/
structure CrawlTrace where
  repoCalls : Nat
  releaseCalls : Nat
  commitCalls : Nat
  deriving Repr, DecidableEq

/-- Step 1 of `CrawlAll`: the repo stage is called only when `repoCache` is
still `nil`; on success the result is cached, `repoChanged` is set, and the
release stage is unconditionally unpaused with its streak reset. Returns
(state, `repoChanged`, number of repo endpoint calls). -/
def crawlStepRepo {P : Type} (s : CoordState P) (env : CrawlEnv P) :
    CoordState P × Bool × Nat :=
  if s.repoCache.isNone then
    match env.repoResult with
    | none => (s, false, 1)
    | some d =>
      ({ s with repoCache := some d, releasePaused := false
                releaseNoChangeCount := 0 },
       true, 1)
  else (s, false, 0)

/-- Step 2 of `CrawlAll`: the release stage is called iff
`(repoChanged || releaseCache == nil) && !releasePaused`; a changed payload
is cached, resets the streak, and unpauses the commit stage; an unchanged
payload bumps the streak and pauses the stage at `stabilityThreshold`.
Returns (state, `releaseChanged`, number of release endpoint calls). -/
def crawlStepRelease {P : Type} [DecidableEq P] (s : CoordState P)
    (env : CrawlEnv P) (repoChanged : Bool) :
    CoordState P × Bool × Nat :=
  if (repoChanged || s.releaseCache.isNone) && !s.releasePaused then
    match env.releaseResult with
    | none => (s, false, 1)
    | some d =>
      if hasDataChanged s.releaseCache d then
        ({ s with releaseCache := some d, releaseNoChangeCount := 0
                  commitPaused := false, commitNoChangeCount := 0 },
         true, 1)
      else
        if s.releaseNoChangeCount + 1 ≥ s.stabilityThreshold then
          ({ s with releaseNoChangeCount := s.releaseNoChangeCount + 1
                    releasePaused := true },
           false, 1)
        else
          ({ s with releaseNoChangeCount := s.releaseNoChangeCount + 1 },
           false, 1)
  else (s, false, 0)

/-- Step 3 of `CrawlAll`, symmetric to step 2 for the commit stage. -/
def crawlStepCommit {P : Type} [DecidableEq P] (s : CoordState P)
    (env : CrawlEnv P) (releaseChanged : Bool) :
    CoordState P × Bool × Nat :=
  if (releaseChanged || s.commitCache.isNone) && !s.commitPaused then
    match env.commitResult with
    | none => (s, false, 1)
    | some d =>
      if hasDataChanged s.commitCache d then
        ({ s with commitCache := some d, commitNoChangeCount := 0 },
         true, 1)
      else
        if s.commitNoChangeCount + 1 ≥ s.stabilityThreshold then
          ({ s with commitNoChangeCount := s.commitNoChangeCount + 1
                    commitPaused := true },
           false, 1)
        else
          ({ s with commitNoChangeCount := s.commitNoChangeCount + 1 },
           false, 1)
  else (s, false, 0)

/-- `CrawlingCoordinator.CrawlAll`: the three stage steps run in strict
sequence (the Go goroutines are immediately joined by `wg.Wait()` after each
step). -/
def crawlAll {P : Type} [DecidableEq P] (s : CoordState P) (env : CrawlEnv P) :
    CoordState P × CrawlTrace :=
  let stepA := crawlStepRepo s env
  let stepB := crawlStepRelease stepA.1 env stepA.2.1
  let stepC := crawlStepCommit stepB.1 env stepB.2.1
  (stepC.1,
   { repoCalls := stepA.2.2, releaseCalls := stepB.2.2
     commitCalls := stepC.2.2 })

/-- `CrawlingCoordinator.ForceReactivateAll`: sets `repoCache = nil`, clears
the release and commit pause flags, and zeroes the three no-change counters.
It does **not** touch `releaseCache`, `commitCache`, or `repoPaused`. -/
def forceReactivateAll {P : Type} (s : CoordState P) : CoordState P :=
  { s with repoCache := none, releasePaused := false, commitPaused := false
           repoNoChangeCount := 0, releaseNoChangeCount := 0
           commitNoChangeCount := 0 }

/-- The select-loop events observed by `StartPeriodicCrawling`: `tick` is the
interval ticker firing (one full interval elapsed), `stop` is the stop
channel firing. -/
inductive TimerEvent where
  | tick
  | stop
  deriving Repr, DecidableEq

/-- `CrawlingCoordinator.StartPeriodicCrawling`, driven by the sequence of
channel events its `select` observes, each `tick` paired with that cycle's
endpoint outcomes. Returns the final coordinator state, the number of
`CrawlAll` cycles run, and whether the loop returned (a `stop` was seen).
An empty/unconsumed suffix means the loop is still blocked in `select`. -/
def startPeriodicCrawling {P : Type} [DecidableEq P] (s : CoordState P) :
    List (TimerEvent × CrawlEnv P) → CoordState P × Nat × Bool
  | [] => (s, 0, false)
  | (TimerEvent.tick, env) :: events =>
    let s1 := (crawlAll s env).1
    let rest := startPeriodicCrawling s1 events
    (rest.1, rest.2.1 + 1, rest.2.2)
  | (TimerEvent.stop, _) :: _ => (s, 0, true)

/-- The number of ticks before the first stop: what a loop that runs one
cycle per tick (and none at startup) performs before returning. -/
def ticksBeforeStop : List TimerEvent → Nat
  | [] => 0
  | TimerEvent.tick :: events => ticksBeforeStop events + 1
  | TimerEvent.stop :: _ => 0

lemma crawlStepRelease_calls {P : Type} [DecidableEq P] (s : CoordState P)
    (env : CrawlEnv P) (ch : Bool) :
    (crawlStepRelease s env ch).2.2 =
      if (ch || s.releaseCache.isNone) && !s.releasePaused then 1 else 0 := by
  by_cases hc : ((ch || s.releaseCache.isNone) && !s.releasePaused) = true
  · cases henv : env.releaseResult with
    | none => simp [crawlStepRelease, hc, henv]
    | some d =>
      by_cases hch : hasDataChanged s.releaseCache d = true
      · simp [crawlStepRelease, hc, henv, hch]
      · by_cases hth : s.releaseNoChangeCount + 1 ≥ s.stabilityThreshold
        · simp [crawlStepRelease, hc, henv, hch, hth]
        · simp [crawlStepRelease, hc, henv, hch, hth]
  · simp [crawlStepRelease, hc]

lemma crawlStepRepo_releaseCache {P : Type} (s : CoordState P)
    (env : CrawlEnv P) :
    (crawlStepRepo s env).1.releaseCache = s.releaseCache := by
  by_cases hrc : s.repoCache.isNone = true
  · cases henv : env.repoResult with
    | none => simp [crawlStepRepo, hrc, henv]
    | some d => simp [crawlStepRepo, hrc, henv]
  · simp [crawlStepRepo, hrc]

lemma crawlStepRepo_changed_unpauses {P : Type} (s : CoordState P)
    (env : CrawlEnv P) (h : (crawlStepRepo s env).2.1 = true) :
    (crawlStepRepo s env).1.releasePaused = false := by
  by_cases hrc : s.repoCache.isNone = true
  · cases henv : env.repoResult with
    | none => simp [crawlStepRepo, hrc, henv] at h
    | some d => simp [crawlStepRepo, hrc, henv]
  · simp [crawlStepRepo, hrc] at h

/-- **C6** — Stage-B change gating: in one `CrawlAll` cycle the release
endpoint is called exactly once iff (the repo stage changed this cycle, or
the release stage has no cached result yet) and the release stage is not
paused (after step 1, which unpauses it whenever the repo stage changed);
in particular, with the repo stage unchanged and a release cache present,
the release endpoint is not called, and whenever the repo stage changed it
is called exactly once. -/
theorem c6_stage_b_change_gating {P : Type} [DecidableEq P]
    (s : CoordState P) (env : CrawlEnv P) :
    (crawlAll s env).2.releaseCalls =
      (if ((crawlStepRepo s env).2.1 ||
            ((crawlStepRepo s env).1.releaseCache).isNone) &&
          !(crawlStepRepo s env).1.releasePaused then 1 else 0) ∧
    ((crawlStepRepo s env).2.1 = false → s.releaseCache.isSome = true →
      (crawlAll s env).2.releaseCalls = 0) ∧
    ((crawlStepRepo s env).2.1 = true →
      (crawlAll s env).2.releaseCalls = 1) := by
  have hcalls : (crawlAll s env).2.releaseCalls =
      (crawlStepRelease (crawlStepRepo s env).1 env
        (crawlStepRepo s env).2.1).2.2 := rfl
  rw [hcalls, crawlStepRelease_calls]
  refine ⟨rfl, ?_, ?_⟩
  · intro hch hsome
    obtain ⟨v, hv⟩ := Option.isSome_iff_exists.mp hsome
    rw [crawlStepRepo_releaseCache, hv, hch]
    rfl
  · intro hch
    rw [hch, crawlStepRepo_changed_unpauses s env hch]
    rfl

/-- Witness for C6: a coordinator with a fresh repo cache (repo fetch
succeeds, so the repo stage changes) calls the release endpoint exactly
once; one whose repo stage is cached (unchanged) with a cached release
result does not call it. -/
theorem c6_stage_b_change_gating_witness :
    (crawlAll (newCrawlingCoordinator Nat)
        { repoResult := some 1, releaseResult := some 2
          commitResult := some 3 }).2.releaseCalls = 1 ∧
    (crawlAll
        { repoCache := some 1, releaseCache := some 2, commitCache := some 3
          repoNoChangeCount := 0, releaseNoChangeCount := 0
          commitNoChangeCount := 0, repoPaused := false
          releasePaused := false, commitPaused := false
          stabilityThreshold := 3 }
        ({ repoResult := some 1, releaseResult := some 2
           commitResult := some 3 } : CrawlEnv Nat)).2.releaseCalls = 0 := by
  constructor
  · exact (c6_stage_b_change_gating (newCrawlingCoordinator Nat)
      { repoResult := some 1, releaseResult := some 2
        commitResult := some 3 }).2.2 rfl
  · exact (c6_stage_b_change_gating
      { repoCache := some 1, releaseCache := some 2, commitCache := some 3
        repoNoChangeCount := 0, releaseNoChangeCount := 0
        commitNoChangeCount := 0, repoPaused := false
        releasePaused := false, commitPaused := false
        stabilityThreshold := 3 }
      { repoResult := some 1, releaseResult := some 2
        commitResult := some 3 }).2.1 rfl rfl

/-- **C4 counterexample** — the claim says `ForceReactivateAll` nils the
cached results of all three stages. On a coordinator whose three caches all
hold data, the release and commit caches survive the call unchanged: only
the repo cache is cleared. -/
theorem c4_counterexample :
    (forceReactivateAll
        ({ repoCache := some 1, releaseCache := some 2, commitCache := some 3
           repoNoChangeCount := 1, releaseNoChangeCount := 2
           commitNoChangeCount := 3, repoPaused := false
           releasePaused := true, commitPaused := true
           stabilityThreshold := 3 } : CoordState Nat)).releaseCache =
      some 2 ∧
    (forceReactivateAll
        ({ repoCache := some 1, releaseCache := some 2, commitCache := some 3
           repoNoChangeCount := 1, releaseNoChangeCount := 2
           commitNoChangeCount := 3, repoPaused := false
           releasePaused := true, commitPaused := true
           stabilityThreshold := 3 } : CoordState Nat)).commitCache =
      some 3 ∧
    ¬((forceReactivateAll
        ({ repoCache := some 1, releaseCache := some 2, commitCache := some 3
           repoNoChangeCount := 1, releaseNoChangeCount := 2
           commitNoChangeCount := 3, repoPaused := false
           releasePaused := true, commitPaused := true
           stabilityThreshold := 3 } : CoordState Nat)).releaseCache =
        none) := by
  refine ⟨rfl, rfl, ?_⟩
  intro h
  cases h

/-- **C4 (amended)** — `ForceReactivateAll` clears the **repo** cache and
resets both downstream pause flags and all three no-change counters, but
leaves the release and commit caches (and the never-set `repoPaused` flag)
untouched; the cleared repo cache forces the repo stage to be re-fetched on
the next cycle. -/
theorem c4_reactivate_amended {P : Type} [DecidableEq P] (s : CoordState P)
    (env : CrawlEnv P) :
    (forceReactivateAll s).repoCache = none ∧
    (forceReactivateAll s).releasePaused = false ∧
    (forceReactivateAll s).commitPaused = false ∧
    (forceReactivateAll s).repoNoChangeCount = 0 ∧
    (forceReactivateAll s).releaseNoChangeCount = 0 ∧
    (forceReactivateAll s).commitNoChangeCount = 0 ∧
    (forceReactivateAll s).releaseCache = s.releaseCache ∧
    (forceReactivateAll s).commitCache = s.commitCache ∧
    (forceReactivateAll s).repoPaused = s.repoPaused ∧
    (crawlAll (forceReactivateAll s) env).2.repoCalls = 1 := by
  refine ⟨rfl, rfl, rfl, rfl, rfl, rfl, rfl, rfl, rfl, ?_⟩
  show (crawlStepRepo (forceReactivateAll s) env).2.2 = 1
  unfold crawlStepRepo
  rw [if_pos (show ((forceReactivateAll s).repoCache).isNone = true from rfl)]
  cases env.repoResult <;> rfl

/-- **C8 counterexample** — the claim says `StartPeriodicCrawling` invokes a
crawl cycle immediately upon being started (hence at least one cycle runs
even if no interval ever elapses). The loop blocks in `select` first: with
no timer event (or with the stop signal firing before the first tick) zero
cycles run. -/
theorem c8_counterexample :
    (startPeriodicCrawling (newCrawlingCoordinator Nat) []).2.1 = 0 ∧
    (startPeriodicCrawling (newCrawlingCoordinator Nat)
        [(TimerEvent.stop,
          { repoResult := none, releaseResult := none
            commitResult := none })]).2.1 = 0 ∧
    (startPeriodicCrawling (newCrawlingCoordinator Nat)
        [(TimerEvent.stop,
          { repoResult := none, releaseResult := none
            commitResult := none })]).2.2 = true :=
  ⟨rfl, rfl, rfl⟩

/-- **C8 (amended)** — `StartPeriodicCrawling` runs one `CrawlAll` per
elapsed interval tick until the stop channel fires, with **no** immediate
cycle at startup: the number of cycles equals the number of ticks observed
before the first stop event, and the loop returns exactly when a stop event
occurs (promptly, running no further cycle). -/
theorem c8_amended_periodic {P : Type} [DecidableEq P] (s : CoordState P)
    (events : List (TimerEvent × CrawlEnv P)) :
    (startPeriodicCrawling s events).2.1 =
      ticksBeforeStop (events.map Prod.fst) ∧
    ((startPeriodicCrawling s events).2.2 = true ↔
      TimerEvent.stop ∈ events.map Prod.fst) := by
  induction events generalizing s with
  | nil => simp [startPeriodicCrawling, ticksBeforeStop]
  | cons e es ih =>
    obtain ⟨t, env⟩ := e
    cases t with
    | tick =>
      obtain ⟨ih1, ih2⟩ := ih (crawlAll s env).1
      constructor
      · simp [startPeriodicCrawling, ticksBeforeStop, ih1]
      · simp [startPeriodicCrawling, ih2]
    | stop =>
      constructor
      · simp [startPeriodicCrawling, ticksBeforeStop]
      · simp [startPeriodicCrawling]

end Crawler
